import Mathlib

/-
Verification of the xray configuration-state components of remnawave-node-go:
the order-independent HashedSet (internal/xray, core file), the ConfigManager
restart-decision mirror, the engine-handle lifecycle, and account builders.
Definitions are shallow embeddings of the Go source; machine integers are
modelled as Nat with explicit reduction modulo 2^32.
-/

/-- Modulus for 32-bit wraparound arithmetic (Go int32 / uint32 two's complement). -/
def U32 : Nat := 4294967296

/-- UTF-8 byte encoding of one character, as Go produces for its string bytes. -/
def charUtf8 (c : Char) : List Nat :=
  let n := c.toNat
  if n < 128 then [n]
  else if n < 2048 then [192 + n / 64, 128 + n % 64]
  else if n < 65536 then [224 + n / 4096, 128 + n / 64 % 64, 128 + n % 64]
  else [240 + n / 262144, 128 + n / 4096 % 64, 128 + n / 64 % 64, 128 + n % 64]

/-- The byte sequence of a Go string (Go strings are UTF-8; `str[i]` indexes bytes). -/
def utf8Bytes (s : String) : List Nat :=
  (s.data.map charUtf8).flatten

/-- djb2Dual from HashedSet: two rolling 32-bit hashes, seeds 5381 and 5387,
mixing `h*33 + c` and `l*65 + c*37`, folded over the string's bytes. Go's
int32 wraparound followed by the final uint32 cast is arithmetic mod 2^32. -/
def djb2Dual (str : String) : Nat × Nat :=
  (utf8Bytes str).foldl
    (fun p c => ((p.1 * 33 + c) % U32, (p.2 * 65 + c * 37) % U32))
    (5381, 5387)

/-- HashedSet: a set of strings with incrementally maintained dual hash
accumulators (`hashHigh`, `hashLow`), mirrors the Go struct. The Go backing
map is modelled as the list of members. -/
structure HashedSet where
  items : List String
  hashHigh : Nat
  hashLow : Nat
deriving DecidableEq

/-- NewHashedSet: empty set, both accumulators zero. -/
def newHashedSet : HashedSet := ⟨[], 0, 0⟩

/-- HashedSet.Add: if absent, insert and XOR both accumulators with the hashes. -/
def HashedSet.add (s : HashedSet) (str : String) : HashedSet :=
  if str ∈ s.items then s
  else ⟨str :: s.items, s.hashHigh ^^^ (djb2Dual str).1, s.hashLow ^^^ (djb2Dual str).2⟩

/-- HashedSet.Delete: if present, remove and XOR both accumulators with the hashes. -/
def HashedSet.delete (s : HashedSet) (str : String) : HashedSet :=
  if str ∈ s.items then
    ⟨s.items.erase str, s.hashHigh ^^^ (djb2Dual str).1, s.hashLow ^^^ (djb2Dual str).2⟩
  else s

/-- HashedSet.Size. -/
def HashedSet.size (s : HashedSet) : Nat := s.items.length

/-- Lowercase hex digit for a value below 16 (as produced by Go's %x verb). -/
def hexDigit (n : Nat) : Char :=
  if n < 10 then Char.ofNat (48 + n) else Char.ofNat (87 + n)

/-- Zero-padded 8-hex-digit rendering of a 32-bit value (Go's %08x). -/
def toHex8 (n : Nat) : String :=
  String.mk ((List.range 8).map fun i => hexDigit (n / 16 ^ (7 - i) % 16))

/-- HashedSet.Hash64String: 8 hex digits of hashHigh then 8 of hashLow. -/
def HashedSet.hash64String (s : HashedSet) : String :=
  toHex8 s.hashHigh ++ toHex8 s.hashLow

/-- Building a HashedSet by a sequence of Add calls starting from the empty set. -/
def buildSet (l : List String) : HashedSet :=
  l.foldl HashedSet.add newHashedSet

/-
ConfigManager (Go file defining IsNeedRestartCore / ExtractUsersFromConfig).
Go's dynamic `map[string]interface{}` JSON values are modelled by `GoValue`;
Go maps are modelled as association lists with unique keys, map lookup as
first-match lookup.
-/

/-- A dynamic Go `interface{}` value, restricted to the shapes the config
extraction inspects: strings, slices, string-keyed maps, and anything else. -/
inductive GoValue where
  | vStr : String → GoValue
  | vList : List GoValue → GoValue
  | vObj : List (String × GoValue) → GoValue
  | vOther : GoValue
deriving Inhabited

/-- Go type assertion `.(string)`. -/
def GoValue.asStr : GoValue → Option String
  | .vStr s => some s
  | _ => none

/-- Go type assertion to a slice. -/
def GoValue.asList : GoValue → Option (List GoValue)
  | .vList l => some l
  | _ => none

/-- Go type assertion to a string-keyed map. -/
def GoValue.asObj : GoValue → Option (List (String × GoValue))
  | .vObj o => some o
  | _ => none

/-- Go map indexing `o[k]` combined with the comma-ok form: `none` when absent. -/
def goLookup (o : List (String × GoValue)) (k : String) : Option GoValue :=
  (o.find? fun p => p.1 == k).map Prod.snd

/-- `o[k].(string)`: lookup followed by string assertion. -/
def goStr (o : List (String × GoValue)) (k : String) : Option String :=
  (goLookup o k).bind GoValue.asStr

/-- InboundHash wire record: tag, fingerprint, user count. -/
structure InboundHash where
  tag : String
  hash : String
  usersCount : Nat
deriving DecidableEq

/-- Hashes payload of the start command: base-config fingerprint plus per-inbound records. -/
structure Hashes where
  emptyConfig : String
  inbounds : List InboundHash
deriving DecidableEq

/-- ConfigManager state: stored base-config fingerprint, per-inbound hash-set
map, tracked tag set, and the stored configuration. The Go maps are modelled
as lists (association list / tag list) with unique keys. -/
structure ConfigManager where
  emptyConfigHash : String
  inboundsHashMap : List (String × HashedSet)
  xtlsConfigInbounds : List String
  xrayConfig : Option (List (String × GoValue))

/-- NewConfigManager: empty fingerprint, empty maps, nil config. -/
def newConfigManager : ConfigManager := ⟨"", [], [], none⟩

/-- Lookup in the per-inbound map (Go `m.inboundsHashMap[tag]`, comma-ok form). -/
def mapLookup (l : List (String × HashedSet)) (k : String) : Option HashedSet :=
  (l.find? fun p => p.1 == k).map Prod.snd

/-- Replace the value stored under an existing key (Go `m[k] = v` when `k` is present). -/
def mapInsert (l : List (String × HashedSet)) (k : String) (v : HashedSet) :
    List (String × HashedSet) :=
  l.map fun p => if p.1 = k then (k, v) else p

/-- Go map assignment `m[k] = v`: replace when present, append a new entry otherwise. -/
def mapSet (l : List (String × HashedSet)) (k : String) (v : HashedSet) :
    List (String × HashedSet) :=
  match mapLookup l k with
  | none => l ++ [(k, v)]
  | some _ => mapInsert l k v

/-- Go set insertion `m[k] = struct{}{}` on the tag set. -/
def setInsert (l : List String) (k : String) : List String :=
  if k ∈ l then l else l ++ [k]

/-- The first inbound record in the signal carrying the given tag
(the inner search loop of IsNeedRestartCore). -/
def findInbound (tag : String) (l : List InboundHash) : Option InboundHash :=
  l.find? fun ih => ih.tag == tag

/-- IsNeedRestartCore: the restart decision, following the source's guard chain:
first start, base-config change, inbound-count change, then per-tracked-tag
disappearance or fingerprint change. -/
def ConfigManager.isNeedRestartCore (m : ConfigManager) (incomingHashes : Hashes) : Bool :=
  if m.emptyConfigHash = "" then true
  else if incomingHashes.emptyConfig ≠ m.emptyConfigHash then true
  else if incomingHashes.inbounds.length ≠ m.inboundsHashMap.length then true
  else m.inboundsHashMap.any fun p =>
    match findInbound p.1 incomingHashes.inbounds with
    | none => true
    | some incomingInbound => p.2.hash64String != incomingInbound.hash

/-- cleanup (internal): clear both maps, the stored config and the fingerprint. -/
def ConfigManager.cleanupState (m : ConfigManager) : ConfigManager :=
  { m with inboundsHashMap := [], xtlsConfigInbounds := [], xrayConfig := none,
           emptyConfigHash := "" }

/-- Cleanup (public): clears all internal state. -/
def ConfigManager.cleanup (m : ConfigManager) : ConfigManager :=
  m.cleanupState

/-- The users-set built for one inbound object: walk settings.clients and Add
every nonempty string `id` field (the nested extraction loop of
ExtractUsersFromConfig). -/
def buildUsersSet (inbound : List (String × GoValue)) : HashedSet :=
  match (goLookup inbound "settings").bind GoValue.asObj with
  | none => newHashedSet
  | some settings =>
    match (goLookup settings "clients").bind GoValue.asList with
    | none => newHashedSet
    | some clients =>
      clients.foldl
        (fun s clientRaw =>
          match clientRaw.asObj with
          | none => s
          | some client =>
            match goStr client "id" with
            | none => s
            | some id => if id = "" then s else s.add id)
        newHashedSet

/-- One iteration of the inbound-processing loop of ExtractUsersFromConfig:
skip non-map entries, missing/empty tags and tags outside the signal, else
install the extracted users-set under the tag in both maps. -/
def procInbound (validTags : List String)
    (st : List (String × HashedSet) × List String) (inboundRaw : GoValue) :
    List (String × HashedSet) × List String :=
  match inboundRaw.asObj with
  | none => st
  | some inbound =>
    match goStr inbound "tag" with
    | none => st
    | some tag =>
      if tag = "" then st
      else if tag ∈ validTags then
        (mapSet st.1 tag (buildUsersSet inbound), setInsert st.2 tag)
      else st

/-- ExtractUsersFromConfig: cleanup, store the new fingerprint and config, then
process the config's `inbounds` slice (missing key or wrong type: return nil
error with the cleaned state). The error component mirrors the Go `error`
return value. -/
def ConfigManager.extractUsersFromConfig (m : ConfigManager) (hashes : Hashes)
    (newConfig : List (String × GoValue)) : ConfigManager × Option String :=
  let m1 := m.cleanupState
  let m2 := { m1 with emptyConfigHash := hashes.emptyConfig, xrayConfig := some newConfig }
  match goLookup newConfig "inbounds" with
  | none => (m2, none)
  | some inboundsRaw =>
    match inboundsRaw.asList with
    | none => (m2, none)
    | some inboundsSlice =>
      let validTags := hashes.inbounds.map InboundHash.tag
      let st := inboundsSlice.foldl (procInbound validTags)
        (m2.inboundsHashMap, m2.xtlsConfigInbounds)
      ({ m2 with inboundsHashMap := st.1, xtlsConfigInbounds := st.2 }, none)

/-- AddUserToInbound: if the tag is unknown, create a fresh one-member set and
install it in the per-inbound map (the Go code does not touch
xtlsConfigInbounds on this path); else Add to the existing set. -/
def ConfigManager.addUserToInbound (m : ConfigManager) (inboundTag userID : String) :
    ConfigManager :=
  match mapLookup m.inboundsHashMap inboundTag with
  | none =>
    { m with inboundsHashMap := mapSet m.inboundsHashMap inboundTag (newHashedSet.add userID) }
  | some usersSet =>
    { m with inboundsHashMap := mapSet m.inboundsHashMap inboundTag (usersSet.add userID) }

/-- RemoveUserFromInbound: no-op on unknown tags; else Delete the member and,
when the set becomes empty, drop the tag from both maps. -/
def ConfigManager.removeUserFromInbound (m : ConfigManager) (inboundTag userID : String) :
    ConfigManager :=
  match mapLookup m.inboundsHashMap inboundTag with
  | none => m
  | some usersSet =>
    let s2 := usersSet.delete userID
    if s2.size = 0 then
      { m with inboundsHashMap := m.inboundsHashMap.filter fun p => p.1 != inboundTag,
               xtlsConfigInbounds := m.xtlsConfigInbounds.filter fun t => t != inboundTag }
    else
      { m with inboundsHashMap := mapSet m.inboundsHashMap inboundTag s2 }

/-- GetXtlsConfigInbounds: the tracked tag list. -/
def ConfigManager.getXtlsConfigInbounds (m : ConfigManager) : List String :=
  m.xtlsConfigInbounds

/-- GetInboundHash: the tracked set's fingerprint, or the empty string. -/
def ConfigManager.getInboundHash (m : ConfigManager) (inboundTag : String) : String :=
  match mapLookup m.inboundsHashMap inboundTag with
  | some usersSet => usersSet.hash64String
  | none => ""

/-
Core engine handle (internal/xray/core.go): Start / Stop lifecycle.
The xray-core instance and the outcomes of the external calls
(instance.Close, core.LoadConfig, core.New, instance.Start) are abstracted:
instances are opaque ids, outcomes are Boolean oracles.
-/

/-- Engine handle state: optional stored instance (opaque id) and running flag. -/
structure CoreState where
  inst : Option Nat
  running : Bool
deriving DecidableEq

/-- NewCore: no instance, not running. -/
def newCoreState : CoreState := ⟨none, false⟩

/-- Outcomes of the external engine calls made during Start. -/
structure StartEnv where
  closeOk : Bool
  loadOk : Bool
  newOk : Bool
  startOk : Bool

/-- stopLocked: nil instance is a no-op; a Close failure returns the error and
leaves the state untouched; success clears the instance and the running flag. -/
def stopLocked (closeOk : Bool) (c : CoreState) : CoreState × Option String :=
  match c.inst with
  | none => (c, none)
  | some _ =>
    if closeOk then ({ inst := none, running := false }, none)
    else (c, some "failed to close xray instance")

/-- The load / create / start stage of Core.Start: each failure returns the
error with the state unchanged; success stores the new instance and marks
running. -/
def coreStartLoad (env : StartEnv) (newInst : Nat) (c : CoreState) :
    CoreState × Option String :=
  if env.loadOk = false then (c, some "failed to load config")
  else if env.newOk = false then (c, some "failed to create xray instance")
  else if env.startOk = false then (c, some "failed to start xray")
  else ({ inst := some newInst, running := true }, none)

/-- Core.Start: if running, stop the existing instance first (a stop failure
aborts with that error); then load, create and start the new instance. -/
def coreStart (env : StartEnv) (newInst : Nat) (c : CoreState) :
    CoreState × Option String :=
  if c.running then
    match stopLocked env.closeOk c with
    | (c2, some e) => (c2, some ("failed to stop existing instance: " ++ e))
    | (c2, none) => coreStartLoad env newInst c2
  else coreStartLoad env newInst c

/-- Core.IsRunning. -/
def CoreState.isRunning (c : CoreState) : Bool := c.running

/-
Account builders (internal/xray/accounts.go).
-/

/-- A protocol-specific xray account (vless / trojan / shadowsocks payloads). -/
inductive XAccount where
  | vless (id : String) (flow : String)
  | trojan (password : String)
  | shadowsocks (password : String) (cipherType : Int) (ivCheck : Bool)
deriving DecidableEq

/-- The protocol a built account belongs to. -/
def XAccount.protoType : XAccount → String
  | .vless _ _ => "vless"
  | .trojan _ => "trojan"
  | .shadowsocks _ _ _ => "shadowsocks"

/-- protocol.User: level, email and the typed account payload. -/
structure ProtocolUser where
  level : Nat
  email : String
  account : XAccount
deriving DecidableEq

/-- BuildVlessUser. -/
def buildVlessUser (email uuid flow : String) (level : Nat) : ProtocolUser :=
  ⟨level, email, XAccount.vless uuid flow⟩

/-- BuildTrojanUser. -/
def buildTrojanUser (email password : String) (level : Nat) : ProtocolUser :=
  ⟨level, email, XAccount.trojan password⟩

/-- BuildShadowsocksUser. -/
def buildShadowsocksUser (email password : String) (cipherType : Int) (ivCheck : Bool)
    (level : Nat) : ProtocolUser :=
  ⟨level, email, XAccount.shadowsocks password cipherType ivCheck⟩

/-- UserData record from accounts.go. -/
structure UserData where
  userID : String
  hashUUID : String
  vlessUUID : String
  trojanPassword : String
  ssPassword : String

/-- InboundUserData record from accounts.go. -/
structure InboundUserData where
  type : String
  tag : String
  flow : String
  cipherType : Int
  ivCheck : Bool

/-- BuildUserForInbound: switch on the inbound's protocol type string;
unrecognized types yield nil (modelled as `none`). -/
def buildUserForInbound (inbound : InboundUserData) (user : UserData) :
    Option ProtocolUser :=
  match inbound.type with
  | "vless" => some (buildVlessUser user.userID user.vlessUUID inbound.flow 0)
  | "trojan" => some (buildTrojanUser user.userID user.trojanPassword 0)
  | "shadowsocks" =>
    some (buildShadowsocksUser user.userID user.ssPassword inbound.cipherType inbound.ivCheck 0)
  | _ => none

/-
Lemmas about HashedSet.
-/

/-- XOR of the hash values of a list of members. -/
def hashOfItems (f : String → Nat) (l : List String) : Nat :=
  (l.map f).foldr (fun a b => a ^^^ b) 0

theorem hashOfItems_cons (f : String → Nat) (x : String) (l : List String) :
    hashOfItems f (x :: l) = f x ^^^ hashOfItems f l := rfl

/-- The consistency invariant of a HashedSet: members are pairwise distinct
and the two accumulators are the XORs of the members' hash values. -/
def HashedSet.Inv (s : HashedSet) : Prop :=
  s.items.Nodup ∧ s.hashHigh = hashOfItems (fun x => (djb2Dual x).1) s.items
    ∧ s.hashLow = hashOfItems (fun x => (djb2Dual x).2) s.items

theorem newHashedSet_inv : newHashedSet.Inv := ⟨List.nodup_nil, rfl, rfl⟩

theorem mem_add_items (s : HashedSet) (str a : String) :
    a ∈ (s.add str).items ↔ a ∈ s.items ∨ a = str := by
  unfold HashedSet.add
  by_cases hm : str ∈ s.items
  · rw [if_pos hm]
    constructor
    · exact fun h => Or.inl h
    · rintro (h | rfl)
      · exact h
      · exact hm
  · rw [if_neg hm]
    simp [List.mem_cons, or_comm]

theorem inv_add {s : HashedSet} (h : s.Inv) (str : String) : (s.add str).Inv := by
  unfold HashedSet.add
  by_cases hm : str ∈ s.items
  · rw [if_pos hm]; exact h
  · rw [if_neg hm]
    refine ⟨List.Nodup.cons hm h.1, ?_, ?_⟩
    · simp only [hashOfItems_cons, h.2.1]
      exact Nat.xor_comm _ _
    · simp only [hashOfItems_cons, h.2.2]
      exact Nat.xor_comm _ _

theorem mem_foldl_add (l : List String) (s : HashedSet) (a : String) :
    a ∈ (l.foldl HashedSet.add s).items ↔ a ∈ s.items ∨ a ∈ l := by
  induction l generalizing s with
  | nil => simp
  | cons x xs ih =>
    rw [List.foldl_cons, ih, mem_add_items]
    simp [List.mem_cons]
    tauto

theorem inv_foldl_add (l : List String) {s : HashedSet} (h : s.Inv) :
    (l.foldl HashedSet.add s).Inv := by
  induction l generalizing s with
  | nil => exact h
  | cons x xs ih => exact ih (inv_add h x)

theorem hashOfItems_perm (f : String → Nat) {l1 l2 : List String} (h : l1.Perm l2) :
    hashOfItems f l1 = hashOfItems f l2 := by
  induction h with
  | nil => rfl
  | cons x _ ih => rw [hashOfItems_cons, hashOfItems_cons, ih]
  | swap x y l =>
    rw [hashOfItems_cons, hashOfItems_cons, hashOfItems_cons, hashOfItems_cons,
      ← Nat.xor_assoc, ← Nat.xor_assoc, Nat.xor_comm (f y) (f x)]
  | trans _ _ ih1 ih2 => rw [ih1, ih2]

/-- C2: building a HashedSet by Add calls over any two permutations of a list
of strings yields the same Fingerprint (Hash64String); the fingerprint depends
on the member set only, not on insertion order. -/
theorem hashedSet_fingerprint_order_independent (l1 l2 : List String) (h : l1.Perm l2) :
    (buildSet l1).hash64String = (buildSet l2).hash64String := by
  unfold buildSet HashedSet.hash64String
  have i1 := inv_foldl_add l1 newHashedSet_inv
  have i2 := inv_foldl_add l2 newHashedSet_inv
  have hp : (l1.foldl HashedSet.add newHashedSet).items.Perm
      (l2.foldl HashedSet.add newHashedSet).items := by
    refine (List.perm_ext_iff_of_nodup i1.1 i2.1).2 fun a => ?_
    rw [mem_foldl_add, mem_foldl_add]
    simp [newHashedSet, h.mem_iff]
  rw [i1.2.1, i2.2.1, i1.2.2, i2.2.2,
    hashOfItems_perm _ hp, hashOfItems_perm _ hp]

/-- C2 witness: two explicit insertion orders of the same two members give the
same fingerprint. -/
theorem hashedSet_fingerprint_order_independent_witness :
    (buildSet ["a", "b"]).hash64String = (buildSet ["b", "a"]).hash64String :=
  hashedSet_fingerprint_order_independent ["a", "b"] ["b", "a"] (by decide)

/-- C7 counterexample: for a set already containing the member, Add is a no-op
but Delete removes it, so the Add-then-Delete pair does not restore the
fingerprint (nor the size): with S = {"a"} and m = "a" both change. -/
theorem add_then_delete_counterexample :
    ¬ (((((buildSet ["a"]).add "a").delete "a").hash64String
          = (buildSet ["a"]).hash64String) ∧
       ((((buildSet ["a"]).add "a").delete "a").size = (buildSet ["a"]).size)) := by
  decide

/-- C7 (amended): provided m is not already a member, Add(m) followed by
Delete(m) restores the fingerprint and the size exactly, for any prior
contents. -/
theorem add_then_delete_restores (S : HashedSet) (m : String) (hm : m ∉ S.items) :
    ((S.add m).delete m).hash64String = S.hash64String ∧
      ((S.add m).delete m).size = S.size := by
  have hstate : (S.add m).delete m = S := by
    unfold HashedSet.add
    rw [if_neg hm]
    unfold HashedSet.delete
    rw [if_pos (List.mem_cons_self m S.items)]
    simp [List.erase_cons_head, Nat.xor_cancel_right]
  rw [hstate]
  exact ⟨rfl, rfl⟩

/-- C7 witness: a concrete instantiation with S = {"x"} and fresh member "a". -/
theorem add_then_delete_restores_witness :
    (((buildSet ["x"]).add "a").delete "a").hash64String = (buildSet ["x"]).hash64String ∧
      (((buildSet ["x"]).add "a").delete "a").size = (buildSet ["x"]).size :=
  add_then_delete_restores (buildSet ["x"]) "a" (by decide)

/-
Lemmas about the restart decision.
-/

theorem restart_any_iff (map : List (String × HashedSet)) (inbs : List InboundHash) :
    (map.any fun p =>
      match findInbound p.1 inbs with
      | none => true
      | some incomingInbound => p.2.hash64String != incomingInbound.hash) = true ↔
    (∃ p ∈ map, findInbound p.1 inbs = none) ∨
    (∃ p ∈ map, ∃ ih, findInbound p.1 inbs = some ih ∧ p.2.hash64String ≠ ih.hash) := by
  rw [List.any_eq_true]
  constructor
  · rintro ⟨p, hp, hf⟩
    cases hfind : findInbound p.1 inbs with
    | none => exact Or.inl ⟨p, hp, hfind⟩
    | some ih =>
      rw [hfind] at hf
      exact Or.inr ⟨p, hp, ih, hfind, by simpa using hf⟩
  · rintro (⟨p, hp, hfind⟩ | ⟨p, hp, ih, hfind, hne⟩)
    · exact ⟨p, hp, by rw [hfind]⟩
    · exact ⟨p, hp, by rw [hfind]; simpa using hne⟩

theorem findInbound_eq_none (tag : String) (l : List InboundHash) :
    findInbound tag l = none ↔ tag ∉ l.map InboundHash.tag := by
  unfold findInbound
  rw [List.find?_eq_none]
  simp [List.mem_map]

theorem findInbound_isSome (tag : String) (l : List InboundHash)
    (h : tag ∈ l.map InboundHash.tag) : ∃ ih, findInbound tag l = some ih := by
  cases hf : findInbound tag l with
  | some ih => exact ⟨ih, rfl⟩
  | none => exact absurd ((findInbound_eq_none tag l).1 hf) (not_not_intro h)

theorem findInbound_some {tag : String} {l : List InboundHash} {ih : InboundHash}
    (h : findInbound tag l = some ih) : ih ∈ l ∧ ih.tag = tag := by
  unfold findInbound at h
  exact ⟨List.mem_of_find?_eq_some h, by simpa using List.find?_some h⟩

/-- C1: IsNeedRestartCore returns true exactly when one of the five conditions
holds: stored base fingerprint empty, base fingerprint differs, inbound count
differs from the per-inbound map size, some tracked tag has no matching signal
entry, or some tracked tag's set fingerprint differs from the matching entry's;
and on a freshly constructed manager it returns true for every signal. -/
theorem isNeedRestartCore_characterization :
    (∀ (m : ConfigManager) (inc : Hashes),
      m.isNeedRestartCore inc = true ↔
        m.emptyConfigHash = "" ∨
        inc.emptyConfig ≠ m.emptyConfigHash ∨
        inc.inbounds.length ≠ m.inboundsHashMap.length ∨
        (∃ p ∈ m.inboundsHashMap, findInbound p.1 inc.inbounds = none) ∨
        (∃ p ∈ m.inboundsHashMap, ∃ ih, findInbound p.1 inc.inbounds = some ih ∧
          p.2.hash64String ≠ ih.hash)) ∧
    (∀ inc : Hashes, newConfigManager.isNeedRestartCore inc = true) := by
  constructor
  · intro m inc
    unfold ConfigManager.isNeedRestartCore
    by_cases h1 : m.emptyConfigHash = ""
    · simp [h1]
    · rw [if_neg h1]
      by_cases h2 : inc.emptyConfig ≠ m.emptyConfigHash
      · simp [h1, h2]
      · rw [if_neg h2]
        by_cases h3 : inc.inbounds.length ≠ m.inboundsHashMap.length
        · simp [h1, h2, h3]
        · rw [if_neg h3, restart_any_iff]
          simp [h1, h2, h3]
  · intro inc
    simp [ConfigManager.isNeedRestartCore, newConfigManager]

/-
C6: tag-set differences of equal cardinality.
-/

/-- One-member users set used in the tag-rename scenario. -/
def renameSet : HashedSet := newHashedSet.add "u"

/-- Mirror tracking only the tag "a", already started (nonempty base fingerprint). -/
def renameMirror : ConfigManager := ⟨"h", [("a", renameSet)], ["a"], none⟩

/-- Signal in which "a" was renamed to "b" (same count, same fingerprint). -/
def renameSignal : Hashes := ⟨"h", [⟨"b", renameSet.hash64String, 1⟩]⟩

/-- C6 counterexample: renaming the single tracked tag "a" to "b" (equal
cardinality, base fingerprints matching, mirror started, no common tag)
makes IsNeedRestartCore return true, not false as claimed: the mirror tag "a"
has no matching signal entry, so the disappearance check fires. -/
theorem rename_detected_counterexample :
    renameMirror.isNeedRestartCore renameSignal = true := by decide

/-- C6 (amended): with the mirror started, base fingerprints matching and the
signal's inbound count equal to the mirror's tracked-tag count, any difference
between the signal's tag set and the mirror's tracked tag set makes
IsNeedRestartCore return true: an incoming-only tag forces (by cardinality)
some mirror tag to be absent from the signal, which the walk over mirror tags
detects. -/
theorem restart_detects_tag_set_difference (m : ConfigManager) (inc : Hashes)
    (hstart : m.emptyConfigHash ≠ "")
    (hbase : inc.emptyConfig = m.emptyConfigHash)
    (hnodup : (m.inboundsHashMap.map Prod.fst).Nodup)
    (hlen : inc.inbounds.length = m.inboundsHashMap.length)
    (hdiff : (∃ t ∈ m.inboundsHashMap.map Prod.fst, t ∉ inc.inbounds.map InboundHash.tag) ∨
             (∃ t ∈ inc.inbounds.map InboundHash.tag, t ∉ m.inboundsHashMap.map Prod.fst)) :
    m.isNeedRestartCore inc = true := by
  have hmiss : ∃ t ∈ m.inboundsHashMap.map Prod.fst,
      t ∉ inc.inbounds.map InboundHash.tag := by
    rcases hdiff with h | ⟨t0, ht0sig, ht0keys⟩
    · exact h
    · by_contra hall
      push_neg at hall
      have hsub : (m.inboundsHashMap.map Prod.fst).toFinset ⊆
          (inc.inbounds.map InboundHash.tag).toFinset.erase t0 := by
        intro t ht
        rw [List.mem_toFinset] at ht
        rw [Finset.mem_erase]
        exact ⟨fun he => ht0keys (he ▸ ht), List.mem_toFinset.2 (hall t ht)⟩
      have h1 : (m.inboundsHashMap.map Prod.fst).toFinset.card =
          (m.inboundsHashMap.map Prod.fst).length := List.toFinset_card_of_nodup hnodup
      have h2 := Finset.card_le_card hsub
      rw [Finset.card_erase_of_mem (List.mem_toFinset.2 ht0sig)] at h2
      have h3 : (inc.inbounds.map InboundHash.tag).toFinset.card ≤
          (inc.inbounds.map InboundHash.tag).length := List.toFinset_card_le _
      have h4 : 0 < (inc.inbounds.map InboundHash.tag).toFinset.card :=
        Finset.card_pos.2 ⟨t0, List.mem_toFinset.2 ht0sig⟩
      simp only [List.length_map] at h1 h3
      omega
  rcases hmiss with ⟨t, htk, htsig⟩
  rcases List.mem_map.1 htk with ⟨p, hp, rfl⟩
  unfold ConfigManager.isNeedRestartCore
  rw [if_neg hstart, if_neg (by simp [hbase]), if_neg (by simp [hlen]), restart_any_iff]
  exact Or.inl ⟨p, hp, (findInbound_eq_none _ _).2 htsig⟩

/-- Two-tag mirror for the C6 witness. -/
def twoTagMirror : ConfigManager :=
  ⟨"h", [("a", renameSet), ("c", renameSet)], ["a", "c"], none⟩

/-- Signal replacing the mirror tag "c" by the new tag "b". -/
def twoTagSignal : Hashes :=
  ⟨"h", [⟨"a", renameSet.hash64String, 1⟩, ⟨"b", renameSet.hash64String, 1⟩]⟩

/-- C6 witness: the amended theorem applied at a concrete instance with an
incoming-only tag. -/
theorem restart_detects_tag_set_difference_witness :
    twoTagMirror.isNeedRestartCore twoTagSignal = true :=
  restart_detects_tag_set_difference twoTagMirror twoTagSignal (by decide) rfl
    (by decide) rfl (by decide)

/-
C5: engine-handle lifecycle failures.
-/

/-- C5 counterexample: with a running handle whose instance fails to close,
Start returns the stop error but leaves the handle running with the old
instance still stored, contradicting the claimed not-running state. -/
theorem core_start_stop_failure_counterexample :
    ((coreStart ⟨false, true, true, true⟩ 1 ⟨some 0, true⟩).2.isSome = true) ∧
    ((coreStart ⟨false, true, true, true⟩ 1 ⟨some 0, true⟩).1.isRunning = true) ∧
    ((coreStart ⟨false, true, true, true⟩ 1 ⟨some 0, true⟩).1.inst = some 0) := by
  decide

/-- C5 (amended): for a coherent handle (running flag agrees with instance
presence), a Start failure in the load / create / start stage — i.e. any
failure other than a stop-before-start failure — leaves the handle not-running
with no stored instance; a stop-before-start failure returns the error but
leaves the handle unchanged, still running with the old instance. -/
theorem core_start_failure_state (env : StartEnv) (i : Nat) (c : CoreState)
    (hinv : c.running = c.inst.isSome) :
    ((c.running = false ∨ env.closeOk = true) → (coreStart env i c).2.isSome = true →
      (coreStart env i c).1.running = false ∧ (coreStart env i c).1.inst = none) ∧
    (c.running = true → env.closeOk = false →
      (coreStart env i c).2.isSome = true ∧ (coreStart env i c).1 = c) := by
  rcases env with ⟨co, lo, no, so⟩
  rcases c with ⟨inst, running⟩
  cases running <;> cases co <;> cases lo <;> cases no <;> cases so <;> cases inst <;>
    simp_all [coreStart, coreStartLoad, stopLocked]

/-- C5 witness: a load failure on a non-running handle leaves it not-running
with no instance. -/
theorem core_start_failure_state_witness :
    (coreStart ⟨true, false, true, true⟩ 1 ⟨none, false⟩).1.running = false ∧
    (coreStart ⟨true, false, true, true⟩ 1 ⟨none, false⟩).1.inst = none :=
  (core_start_failure_state ⟨true, false, true, true⟩ 1 ⟨none, false⟩ (by decide)).1
    (Or.inl (by decide)) (by decide)

/-
C8: removing the last member of a tracked inbound.
-/

theorem mapLookup_filter_ne (l : List (String × HashedSet)) (t : String) :
    mapLookup (l.filter fun p => p.1 != t) t = none := by
  unfold mapLookup
  rw [Option.map_eq_none', List.find?_eq_none]
  intro x hx
  have hne := (List.mem_filter.1 hx).2
  simp only [bne_iff_ne, ne_eq, decide_eq_true_eq] at hne
  simpa using hne

theorem not_mem_filter_ne (l : List String) (t : String) :
    t ∉ l.filter fun x => x != t := by
  intro h
  have := (List.mem_filter.1 h).2
  simp at this

/-- C8: if tag t is tracked with exactly one member u, RemoveUserFromInbound
t u makes GetInboundHash t return the empty string and removes t from the
tags returned by GetXtlsConfigInbounds. -/
theorem remove_last_member_untracks (m : ConfigManager) (t u : String) (hs : HashedSet)
    (hlook : mapLookup m.inboundsHashMap t = some hs)
    (hone : hs.items = [u]) :
    (m.removeUserFromInbound t u).getInboundHash t = "" ∧
    t ∉ (m.removeUserFromInbound t u).getXtlsConfigInbounds := by
  have hdel : (hs.delete u).size = 0 := by
    unfold HashedSet.delete HashedSet.size
    rw [hone]
    simp
  unfold ConfigManager.removeUserFromInbound
  rw [hlook]
  simp only [hdel, if_pos]
  constructor
  · unfold ConfigManager.getInboundHash
    rw [mapLookup_filter_ne]
  · exact not_mem_filter_ne _ _

/-- Mirror for the C8 witness: tag "t" tracked with the single member "u". -/
def lastMemberMirror : ConfigManager := ⟨"h", [("t", renameSet)], ["t"], none⟩

/-- C8 witness: removing "u" from "t" on the concrete one-member mirror. -/
theorem remove_last_member_untracks_witness :
    (lastMemberMirror.removeUserFromInbound "t" "u").getInboundHash "t" = "" ∧
    "t" ∉ (lastMemberMirror.removeUserFromInbound "t" "u").getXtlsConfigInbounds :=
  remove_last_member_untracks lastMemberMirror "t" "u" renameSet (by decide) (by decide)

/-
C9: account building per protocol type.
-/

/-- C9: for the three recognized protocol type strings BuildUserForInbound
returns an account of the corresponding protocol; for every other type string
it returns none (no account, no panic). -/
theorem buildUserForInbound_protocol_cases (inbound : InboundUserData) (user : UserData) :
    (inbound.type ∉ (["vless", "trojan", "shadowsocks"] : List String) →
      buildUserForInbound inbound user = none) ∧
    (inbound.type ∈ (["vless", "trojan", "shadowsocks"] : List String) →
      ∃ pu, buildUserForInbound inbound user = some pu ∧
        pu.account.protoType = inbound.type) := by
  constructor
  · intro hne
    unfold buildUserForInbound
    split
    · rename_i heq
      rw [heq] at hne
      exact absurd (by decide) hne
    · rename_i heq
      rw [heq] at hne
      exact absurd (by decide) hne
    · rename_i heq
      rw [heq] at hne
      exact absurd (by decide) hne
    · rfl
  · intro hmem
    unfold buildUserForInbound
    split
    · rename_i heq
      exact ⟨_, rfl, by rw [heq]; rfl⟩
    · rename_i heq
      exact ⟨_, rfl, by rw [heq]; rfl⟩
    · rename_i heq
      exact ⟨_, rfl, by rw [heq]; rfl⟩
    · rename_i hne1 hne2 hne3
      simp only [List.mem_cons, List.not_mem_nil, or_false] at hmem
      rcases hmem with h | h | h <;> contradiction

/-- Sample user record for the C9 witness. -/
def sampleUser : UserData := ⟨"e", "h", "v", "tp", "sp"⟩

/-- C9 witness: an unrecognized type ("http") yields none; "vless" yields a
vless account. -/
theorem buildUserForInbound_protocol_cases_witness :
    buildUserForInbound ⟨"http", "t", "", 0, false⟩ sampleUser = none ∧
    ∃ pu, buildUserForInbound ⟨"vless", "t", "", 0, false⟩ sampleUser = some pu ∧
      pu.account.protoType = "vless" :=
  ⟨(buildUserForInbound_protocol_cases ⟨"http", "t", "", 0, false⟩ sampleUser).1 (by decide),
   (buildUserForInbound_protocol_cases ⟨"vless", "t", "", 0, false⟩ sampleUser).2 (by decide)⟩

/-
C10: ExtractUsersFromConfig never reports an error.
-/

/-- C10: ExtractUsersFromConfig returns a nil error for every manager state,
signal and configuration value: every malformed or untracked portion is
silently skipped. -/
theorem extractUsers_never_errors (m : ConfigManager) (hashes : Hashes)
    (newConfig : List (String × GoValue)) :
    (m.extractUsersFromConfig hashes newConfig).2 = none := by
  unfold ConfigManager.extractUsersFromConfig
  cases goLookup newConfig "inbounds" with
  | none => rfl
  | some raw => cases raw <;> rfl

/-
C3: the mirror invariants and how each operation treats them.
-/

theorem mapLookup_eq_none_iff (l : List (String × HashedSet)) (k : String) :
    mapLookup l k = none ↔ k ∉ l.map Prod.fst := by
  unfold mapLookup
  rw [Option.map_eq_none', List.find?_eq_none]
  simp only [beq_iff_eq, List.mem_map, not_exists]
  constructor
  · rintro h p ⟨hp, hk⟩
    exact h p hp hk
  · intro h p hp hk
    exact h p ⟨hp, hk⟩

theorem mapLookup_some_mem {l : List (String × HashedSet)} {k : String} {v : HashedSet}
    (h : mapLookup l k = some v) : (k, v) ∈ l := by
  unfold mapLookup at h
  rcases Option.map_eq_some'.1 h with ⟨p, hf, hpv⟩
  have hmem := List.mem_of_find?_eq_some hf
  have hpk := List.find?_some hf
  simp only [beq_iff_eq] at hpk
  obtain ⟨a, b⟩ := p
  cases hpk
  cases hpv
  exact hmem

theorem keys_mapInsert (l : List (String × HashedSet)) (k : String) (v : HashedSet) :
    (mapInsert l k v).map Prod.fst = l.map Prod.fst := by
  unfold mapInsert
  rw [List.map_map]
  apply List.map_congr_left
  intro p _
  by_cases h : p.1 = k
  · simp [h]
  · simp [h]

theorem mem_keys_mapSet (l : List (String × HashedSet)) (k : String) (v : HashedSet)
    (t : String) : t ∈ (mapSet l k v).map Prod.fst ↔ t ∈ l.map Prod.fst ∨ t = k := by
  unfold mapSet
  cases hl : mapLookup l k with
  | none => simp
  | some w =>
    rw [keys_mapInsert]
    have hk : k ∈ l.map Prod.fst := List.mem_map.2 ⟨(k, w), mapLookup_some_mem hl, rfl⟩
    constructor
    · exact Or.inl
    · rintro (h | rfl)
      · exact h
      · exact hk

theorem mem_setInsert (l : List String) (k t : String) :
    t ∈ setInsert l k ↔ t ∈ l ∨ t = k := by
  unfold setInsert
  by_cases h : k ∈ l
  · rw [if_pos h]
    constructor
    · exact Or.inl
    · rintro (hh | rfl)
      · exact hh
      · exact h
  · rw [if_neg h]
    simp

theorem mem_mapInsert {l : List (String × HashedSet)} {k : String} {v : HashedSet}
    {p : String × HashedSet} (h : p ∈ mapInsert l k v) : p = (k, v) ∨ p ∈ l := by
  unfold mapInsert at h
  rcases List.mem_map.1 h with ⟨q, hq, hpq⟩
  by_cases hqk : q.1 = k
  · rw [if_pos hqk] at hpq
    exact Or.inl hpq.symm
  · rw [if_neg hqk] at hpq
    exact Or.inr (hpq ▸ hq)

theorem mem_mapSet {l : List (String × HashedSet)} {k : String} {v : HashedSet}
    {p : String × HashedSet} (h : p ∈ mapSet l k v) : p = (k, v) ∨ p ∈ l := by
  unfold mapSet at h
  cases hl : mapLookup l k
  · simp only [hl] at h
    rcases List.mem_append.1 h with h2 | h2
    · exact Or.inr h2
    · simp at h2
      exact Or.inl h2
  · simp only [hl] at h
    exact mem_mapInsert h

/-- First invariant of the claim: the per-inbound map and the tracked tag set
have the same keys. -/
def sameKeys (m : ConfigManager) : Prop :=
  ∀ t, t ∈ m.inboundsHashMap.map Prod.fst ↔ t ∈ m.xtlsConfigInbounds

/-- Second invariant of the claim: every per-inbound entry has at least one member. -/
def entriesNonempty (m : ConfigManager) : Prop :=
  ∀ p ∈ m.inboundsHashMap, p.2.size ≠ 0

/-- The well-formedness filter implicit in the extraction loop: an inbound
object contributes an entry exactly when it is a map carrying a nonempty
string tag that the signal tracks; the entry is its extracted users-set. -/
def wfEntry (validTags : List String) (raw : GoValue) : Option (String × HashedSet) :=
  match raw.asObj with
  | none => none
  | some inbound =>
    match goStr inbound "tag" with
    | none => none
    | some tag =>
      if tag = "" then none
      else if tag ∈ validTags then some (tag, buildUsersSet inbound)
      else none

theorem procInbound_eq (vt : List String) (st : List (String × HashedSet) × List String)
    (raw : GoValue) :
    procInbound vt st raw =
      match wfEntry vt raw with
      | none => st
      | some p => (mapSet st.1 p.1 p.2, setInsert st.2 p.1) := by
  cases raw with
  | vStr s => rfl
  | vList l => rfl
  | vOther => rfl
  | vObj o =>
    simp only [procInbound, wfEntry, GoValue.asObj]
    cases goStr o "tag" with
    | none => rfl
    | some tag =>
      by_cases h1 : tag = ""
      · simp [h1]
      · by_cases h2 : tag ∈ vt
        · simp [h1, h2]
        · simp [h1, h2]

theorem procInbound_keys (vt : List String) (st : List (String × HashedSet) × List String)
    (raw : GoValue) (h : ∀ t, t ∈ st.1.map Prod.fst ↔ t ∈ st.2) :
    ∀ t, t ∈ (procInbound vt st raw).1.map Prod.fst ↔ t ∈ (procInbound vt st raw).2 := by
  rw [procInbound_eq]
  cases wfEntry vt raw with
  | none => exact h
  | some p =>
    show ∀ t, t ∈ (mapSet st.1 p.1 p.2).map Prod.fst ↔ t ∈ setInsert st.2 p.1
    intro t
    rw [mem_keys_mapSet, mem_setInsert, h t]

theorem foldl_procInbound_keys (vt : List String) (l : List GoValue)
    (st : List (String × HashedSet) × List String)
    (h : ∀ t, t ∈ st.1.map Prod.fst ↔ t ∈ st.2) :
    ∀ t, t ∈ (l.foldl (procInbound vt) st).1.map Prod.fst ↔
      t ∈ (l.foldl (procInbound vt) st).2 := by
  induction l generalizing st with
  | nil => exact h
  | cons x xs ih => exact ih _ (procInbound_keys vt st x h)

theorem extract_sameKeys (m : ConfigManager) (hashes : Hashes)
    (newConfig : List (String × GoValue)) :
    sameKeys (m.extractUsersFromConfig hashes newConfig).1 := by
  unfold ConfigManager.extractUsersFromConfig
  cases goLookup newConfig "inbounds" with
  | none =>
    intro t
    simp [ConfigManager.cleanupState]
  | some raw =>
    cases raw with
    | vStr s =>
      intro t
      simp [ConfigManager.cleanupState, GoValue.asList]
    | vObj o =>
      intro t
      simp [ConfigManager.cleanupState, GoValue.asList]
    | vOther =>
      intro t
      simp [ConfigManager.cleanupState, GoValue.asList]
    | vList slice =>
      exact foldl_procInbound_keys _ slice ([], []) (fun t => by simp)

theorem addUser_known_sameKeys (m : ConfigManager) (t u : String)
    (hk : t ∈ m.inboundsHashMap.map Prod.fst) (h : sameKeys m) :
    sameKeys (m.addUserToInbound t u) := by
  unfold ConfigManager.addUserToInbound
  cases hl : mapLookup m.inboundsHashMap t with
  | none => exact absurd hk ((mapLookup_eq_none_iff _ _).1 hl)
  | some s =>
    intro x
    show x ∈ (mapSet m.inboundsHashMap t (s.add u)).map Prod.fst ↔ x ∈ m.xtlsConfigInbounds
    rw [mem_keys_mapSet]
    constructor
    · rintro (hx | rfl)
      · exact (h x).1 hx
      · exact (h x).1 hk
    · intro hx
      exact Or.inl ((h x).2 hx)

theorem removeUser_sameKeys (m : ConfigManager) (t u : String) (h : sameKeys m) :
    sameKeys (m.removeUserFromInbound t u) := by
  rcases hl : mapLookup m.inboundsHashMap t with _ | s
  · simp only [ConfigManager.removeUserFromInbound, hl]
    exact h
  · simp only [ConfigManager.removeUserFromInbound, hl]
    by_cases hz : (s.delete u).size = 0
    · rw [if_pos hz]
      intro x
      show x ∈ (m.inboundsHashMap.filter fun p => p.1 != t).map Prod.fst ↔
        x ∈ m.xtlsConfigInbounds.filter fun y => y != t
      constructor
      · intro hx
        rcases List.mem_map.1 hx with ⟨p, hp, rfl⟩
        have hmem := List.mem_filter.1 hp
        rw [List.mem_filter]
        exact ⟨(h p.1).1 (List.mem_map.2 ⟨p, hmem.1, rfl⟩), hmem.2⟩
      · intro hx
        have hmem := List.mem_filter.1 hx
        rcases List.mem_map.1 ((h x).2 hmem.1) with ⟨p, hp, rfl⟩
        exact List.mem_map.2 ⟨p, List.mem_filter.2 ⟨hp, hmem.2⟩, rfl⟩
    · rw [if_neg hz]
      intro x
      show x ∈ (mapSet m.inboundsHashMap t (s.delete u)).map Prod.fst ↔
        x ∈ m.xtlsConfigInbounds
      rw [mem_keys_mapSet]
      constructor
      · rintro (hx | rfl)
        · exact (h x).1 hx
        · exact (h _).1 (List.mem_map.2 ⟨(x, s), mapLookup_some_mem hl, rfl⟩)
      · intro hx
        exact Or.inl ((h x).2 hx)

theorem cleanup_sameKeys (m : ConfigManager) : sameKeys m.cleanup := by
  intro t
  simp [ConfigManager.cleanup, ConfigManager.cleanupState]

theorem size_add_ne_zero (s : HashedSet) (u : String) : (s.add u).size ≠ 0 := by
  unfold HashedSet.add HashedSet.size
  by_cases h : u ∈ s.items
  · rw [if_pos h]
    intro hl
    rw [List.length_eq_zero] at hl
    rw [hl] at h
    exact absurd h (List.not_mem_nil u)
  · rw [if_neg h]
    simp

theorem addUser_entriesNonempty (m : ConfigManager) (t u : String) (h : entriesNonempty m) :
    entriesNonempty (m.addUserToInbound t u) := by
  unfold ConfigManager.addUserToInbound
  cases hl : mapLookup m.inboundsHashMap t with
  | none =>
    intro p hp
    rcases mem_mapSet hp with rfl | hpl
    · exact size_add_ne_zero _ _
    · exact h p hpl
  | some s =>
    intro p hp
    rcases mem_mapSet hp with rfl | hpl
    · exact size_add_ne_zero _ _
    · exact h p hpl

theorem removeUser_entriesNonempty (m : ConfigManager) (t u : String)
    (h : entriesNonempty m) : entriesNonempty (m.removeUserFromInbound t u) := by
  rcases hl : mapLookup m.inboundsHashMap t with _ | s
  · simp only [ConfigManager.removeUserFromInbound, hl]
    exact h
  · simp only [ConfigManager.removeUserFromInbound, hl]
    by_cases hz : (s.delete u).size = 0
    · rw [if_pos hz]
      intro p hp
      exact h p (List.mem_filter.1 hp).1
    · rw [if_neg hz]
      intro p hp
      rcases mem_mapSet hp with rfl | hpl
      · exact hz
      · exact h p hpl

theorem cleanup_entriesNonempty (m : ConfigManager) : entriesNonempty m.cleanup := by
  intro p hp
  simp [ConfigManager.cleanup, ConfigManager.cleanupState] at hp

/-- C3 counterexample: AddUserToInbound on an untracked tag registers the tag
in the per-inbound map but not in the tracked-tag set, breaking key-set
equality; and ExtractUsersFromConfig installs a zero-member entry for a
tracked inbound with no clients, breaking the nonempty-entry property. -/
theorem configManager_invariant_counterexample :
    (¬ sameKeys (newConfigManager.addUserToInbound "t" "u")) ∧
    (¬ entriesNonempty (newConfigManager.extractUsersFromConfig
        ⟨"h", [⟨"t", "0000000000000000", 0⟩]⟩
        [("inbounds", GoValue.vList [GoValue.vObj [("tag", GoValue.vStr "t")]])]).1) :=
  ⟨fun h => absurd ((h "t").1 (by decide)) (by decide),
   fun h => absurd (by decide : (("t", newHashedSet) : String × HashedSet).2.size = 0)
     (h ("t", newHashedSet) (by decide))⟩

/-- C3 (amended): ExtractUsersFromConfig always (re)establishes key-set
equality between the per-inbound map and the tracked-tag set, and
RemoveUserFromInbound and Cleanup preserve it, but AddUserToInbound preserves
it only when the tag is already tracked in the per-inbound map; the
nonempty-entry property is preserved by AddUserToInbound,
RemoveUserFromInbound and Cleanup, but not by ExtractUsersFromConfig, which
may install zero-member entries. -/
theorem configManager_invariant_preservation :
    (∀ (m : ConfigManager) (h : Hashes) (c : List (String × GoValue)),
      sameKeys (m.extractUsersFromConfig h c).1) ∧
    (∀ (m : ConfigManager) (t u : String), t ∈ m.inboundsHashMap.map Prod.fst →
      sameKeys m → sameKeys (m.addUserToInbound t u)) ∧
    (∀ (m : ConfigManager) (t u : String), sameKeys m →
      sameKeys (m.removeUserFromInbound t u)) ∧
    (∀ m : ConfigManager, sameKeys m.cleanup) ∧
    (∀ (m : ConfigManager) (t u : String), entriesNonempty m →
      entriesNonempty (m.addUserToInbound t u)) ∧
    (∀ (m : ConfigManager) (t u : String), entriesNonempty m →
      entriesNonempty (m.removeUserFromInbound t u)) ∧
    (∀ m : ConfigManager, entriesNonempty m.cleanup) :=
  ⟨extract_sameKeys, addUser_known_sameKeys, removeUser_sameKeys, cleanup_sameKeys,
   addUser_entriesNonempty, removeUser_entriesNonempty, cleanup_entriesNonempty⟩

/-- C3 witness: key-set equality after extraction on a concrete signal and
configuration, preserved through a RemoveUserFromInbound call. -/
theorem configManager_invariant_preservation_witness :
    sameKeys (((newConfigManager.extractUsersFromConfig
        ⟨"h", [⟨"t", "0000000000000000", 0⟩]⟩
        [("inbounds", GoValue.vList [GoValue.vObj [("tag", GoValue.vStr "t")]])]).1
      ).removeUserFromInbound "t" "x") :=
  configManager_invariant_preservation.2.2.1 _ "t" "x"
    (configManager_invariant_preservation.1 newConfigManager _ _)

/-
C4: restart decision immediately after extraction.
-/

theorem wfEntry_tag_mem {vt : List String} {raw : GoValue} {p : String × HashedSet}
    (h : wfEntry vt raw = some p) : p.1 ∈ vt := by
  unfold wfEntry at h
  rcases hro : raw.asObj with _ | inbound
  · simp only [hro] at h
    exact Option.noConfusion h
  · simp only [hro] at h
    rcases hg : goStr inbound "tag" with _ | tag
    · simp only [hg] at h
      exact Option.noConfusion h
    · simp only [hg] at h
      by_cases h1 : tag = ""
      · rw [if_pos h1] at h
        exact Option.noConfusion h
      · rw [if_neg h1] at h
        by_cases h2 : tag ∈ vt
        · rw [if_pos h2] at h
          injection h with h3
          rw [← h3]
          exact h2
        · rw [if_neg h2] at h
          exact Option.noConfusion h

theorem foldl_procInbound_filterMap (vt : List String) (l : List GoValue)
    (st : List (String × HashedSet) × List String) :
    l.foldl (procInbound vt) st =
      (l.filterMap (wfEntry vt)).foldl
        (fun st p => (mapSet st.1 p.1 p.2, setInsert st.2 p.1)) st := by
  induction l generalizing st with
  | nil => rfl
  | cons x xs ih =>
    rw [List.foldl_cons, List.filterMap_cons, procInbound_eq]
    cases wfEntry vt x with
    | none => exact ih st
    | some p => exact ih _

theorem foldl_step2_nodup (ve : List (String × HashedSet)) :
    ∀ acc : List (String × HashedSet),
    (acc.map Prod.fst ++ ve.map Prod.fst).Nodup →
    ve.foldl (fun st p => (mapSet st.1 p.1 p.2, setInsert st.2 p.1))
      (acc, acc.map Prod.fst) = (acc ++ ve, (acc ++ ve).map Prod.fst) := by
  induction ve with
  | nil =>
    intro acc _
    simp
  | cons p ps ih =>
    intro acc h
    rw [List.foldl_cons]
    have hpk : p.1 ∉ acc.map Prod.fst := by
      rw [List.nodup_append] at h
      intro hmem
      exact h.2.2 hmem (by simp)
    have h1 : mapSet acc p.1 p.2 = acc ++ [p] := by
      unfold mapSet
      rw [(mapLookup_eq_none_iff acc p.1).2 hpk]
    have h2 : setInsert (acc.map Prod.fst) p.1 = acc.map Prod.fst ++ [p.1] := by
      unfold setInsert
      rw [if_neg hpk]
    have h3 : acc.map Prod.fst ++ [p.1] = (acc ++ [p]).map Prod.fst := by simp
    have hnd2 : ((acc ++ [p]).map Prod.fst ++ ps.map Prod.fst).Nodup := by
      simp only [List.map_append, List.map_cons, List.map_nil, List.append_assoc,
        List.singleton_append] at h ⊢
      exact h
    rw [h1, h2, h3, ih (acc ++ [p]) hnd2]
    simp

theorem foldl_step2_nil (ve : List (String × HashedSet)) (h : (ve.map Prod.fst).Nodup) :
    ve.foldl (fun st p => (mapSet st.1 p.1 p.2, setInsert st.2 p.1)) ([], []) =
      (ve, ve.map Prod.fst) := by
  have := foldl_step2_nodup ve [] (by simpa using h)
  simpa using this

theorem extract_components (m : ConfigManager) (hashes : Hashes)
    (newConfig : List (String × GoValue)) (slice : List GoValue)
    (hg : goLookup newConfig "inbounds" = some (GoValue.vList slice))
    (hnd : ((slice.filterMap (wfEntry (hashes.inbounds.map InboundHash.tag))).map
      Prod.fst).Nodup) :
    (m.extractUsersFromConfig hashes newConfig).1 =
      { emptyConfigHash := hashes.emptyConfig,
        inboundsHashMap := slice.filterMap (wfEntry (hashes.inbounds.map InboundHash.tag)),
        xtlsConfigInbounds :=
          (slice.filterMap (wfEntry (hashes.inbounds.map InboundHash.tag))).map Prod.fst,
        xrayConfig := some newConfig } := by
  simp only [ConfigManager.extractUsersFromConfig, hg, GoValue.asList,
    ConfigManager.cleanupState]
  rw [foldl_procInbound_filterMap, foldl_step2_nil _ hnd]

theorem isNeedRestartCore_false (m : ConfigManager) (inc : Hashes)
    (h1 : m.emptyConfigHash ≠ "")
    (h2 : inc.emptyConfig = m.emptyConfigHash)
    (h3 : inc.inbounds.length = m.inboundsHashMap.length)
    (h4 : ∀ p ∈ m.inboundsHashMap, ∃ ih, findInbound p.1 inc.inbounds = some ih ∧
      p.2.hash64String = ih.hash) :
    m.isNeedRestartCore inc = false := by
  unfold ConfigManager.isNeedRestartCore
  rw [if_neg h1, if_neg (by simp [h2]), if_neg (by simp [h3]), List.any_eq_false]
  intro p hp
  rcases h4 p hp with ⟨ih, hfind, hhash⟩
  simp only [hfind]
  simp [hhash]

/-- C4 counterexample: ExtractUsers followed by IsRestartNeeded on the same
signal can return true: with a signal whose base-config fingerprint is the
empty string, the stored fingerprint stays empty and the first-start condition
fires. -/
theorem extract_then_restart_counterexample :
    ((newConfigManager.extractUsersFromConfig ⟨"", []⟩ []).1.isNeedRestartCore ⟨"", []⟩)
      = true := by
  decide

/-- C4 (amended): after ExtractUsers(signal, cfg), IsRestartNeeded(signal)
returns false provided the signal's base fingerprint is nonempty, cfg has an
inbounds list, the well-formed cfg inbounds carrying signal-tracked tags have
pairwise distinct tags and are exactly as many as the signal's entries, and
each one's extracted client-set fingerprint equals the fingerprint in the
matching signal entry; without these extra conditions a restart can still be
reported. -/
theorem extract_then_no_restart (m : ConfigManager) (hashes : Hashes)
    (newConfig : List (String × GoValue)) (slice : List GoValue)
    (hg : goLookup newConfig "inbounds" = some (GoValue.vList slice))
    (hbase : hashes.emptyConfig ≠ "")
    (hnd : ((slice.filterMap (wfEntry (hashes.inbounds.map InboundHash.tag))).map
      Prod.fst).Nodup)
    (hlen : (slice.filterMap (wfEntry (hashes.inbounds.map InboundHash.tag))).length =
      hashes.inbounds.length)
    (hfp : ∀ p ∈ slice.filterMap (wfEntry (hashes.inbounds.map InboundHash.tag)),
      ((findInbound p.1 hashes.inbounds).all fun ih => p.2.hash64String == ih.hash) = true) :
    ((m.extractUsersFromConfig hashes newConfig).1.isNeedRestartCore hashes) = false := by
  rw [extract_components m hashes newConfig slice hg hnd]
  refine isNeedRestartCore_false _ _ hbase rfl hlen.symm ?_
  intro p hp
  have htag : p.1 ∈ hashes.inbounds.map InboundHash.tag := by
    rcases List.mem_filterMap.1 hp with ⟨raw, _, hw⟩
    exact wfEntry_tag_mem hw
  rcases findInbound_isSome p.1 hashes.inbounds htag with ⟨ih, hfind⟩
  refine ⟨ih, hfind, ?_⟩
  have := hfp p hp
  rw [hfind] at this
  simpa [Option.all] using this

/-- Concrete inbound slice for the C4 witness: one inbound "t" with one
client id "u". -/
def c4Slice : List GoValue :=
  [GoValue.vObj [("tag", GoValue.vStr "t"),
    ("settings", GoValue.vObj
      [("clients", GoValue.vList [GoValue.vObj [("id", GoValue.vStr "u")]])])]]

/-- Concrete configuration for the C4 witness. -/
def c4Config : List (String × GoValue) := [("inbounds", GoValue.vList c4Slice)]

/-- Concrete signal for the C4 witness; the fingerprint is the dual-djb2 hash
of the one-member set containing "u". -/
def c4Signal : Hashes := ⟨"h1", [⟨"t", "0002b61a000568b4", 1⟩]⟩

/-- C4 witness: on the concrete signal and matching configuration, extraction
followed by the restart check on the identical signal yields false. -/
theorem extract_then_no_restart_witness :
    ((newConfigManager.extractUsersFromConfig c4Signal c4Config).1.isNeedRestartCore
      c4Signal) = false :=
  extract_then_no_restart newConfigManager c4Signal c4Config c4Slice rfl (by decide)
    (by decide) (by decide) (by decide)
